import Mathlib

/-!
# Verification of the taxiflow weather-ingest pipeline

Shallow embedding of `src/ingest_weather.py`: a sequential
fetch-filter-transform-write pipeline over pandas tables.

Modelling choices:
* A pandas cell is a `Value`: missing (`NaN`/`NaT`), a string, an integer,
  or a timestamp.  Numeric cells are modelled over `Int`; fractional
  parsing is abstracted (no claim depends on fractional magnitudes, only
  on numeric-vs-missing and comparison with 0).
* A `DataFrame` is a column-name list plus rows of positionally aligned
  cells (`Table`).
* `pd.Timestamp` values are modelled as `(year, month, day, hour, minute)`
  tuples ordered lexicographically, which coincides with chronological
  order for valid calendar datetimes; `pd.to_datetime(..., errors="coerce")`
  yields the missing marker `Value.na` (NaT) on invalid input.  The finite
  representable range of pandas timestamps is abstracted.
* The remote source is a function from station id to the station file's
  row list; network transport is out of scope (treated as a given
  interface, per the spec).
* Process effects (the import-time output-directory creation, per-station
  fetches, the final file write) are recorded in an explicit effect trace.
-/

/-- A pandas cell: missing (NaN/NaT), a raw string, a numeric value, or a
timestamp. -/
inductive Value where
  | na : Value
  | str (s : String) : Value
  | int (n : Int) : Value
  | ts (y m d h mi : Nat) : Value
deriving DecidableEq, Repr

/-- A timestamp as (year, month, day, hour, minute). -/
structure Ts where
  year : Nat
  month : Nat
  day : Nat
  hour : Nat
  minute : Nat
deriving DecidableEq, Repr

/-- `pd.Timestamp` comparison: chronological order, i.e. lexicographic on
(year, month, day, hour, minute) for calendar datetimes. -/
def tsLe (a b : Ts) : Bool :=
  if a.year ≠ b.year then a.year < b.year
  else if a.month ≠ b.month then a.month < b.month
  else if a.day ≠ b.day then a.day < b.day
  else if a.hour ≠ b.hour then a.hour < b.hour
  else a.minute ≤ b.minute

/-- Gregorian leap-year rule. -/
def isLeap (y : Nat) : Bool :=
  (y % 4 == 0 && y % 100 != 0) || y % 400 == 0

/-- Days in a month of the Gregorian calendar (0 for an invalid month). -/
def daysInMonth (y m : Nat) : Nat :=
  match m with
  | 1 => 31 | 3 => 31 | 5 => 31 | 7 => 31 | 8 => 31 | 10 => 31 | 12 => 31
  | 4 => 30 | 6 => 30 | 9 => 30 | 11 => 30
  | 2 => if isLeap y then 29 else 28
  | _ => 0

/-- Integer reading of a cell, as `pd.to_datetime`/`pd.to_numeric` cast
cells: numeric cells pass through, digit strings parse, anything else
(missing, non-numeric text, timestamps) fails. -/
def cellToInt : Value → Option Int
  | .int n => some n
  | .str s => s.toInt?
  | _ => none

/-- `pd.to_datetime(dict(year=..,month=..,day=..,hour=..,minute=..),
errors="coerce")` for one row: a timestamp when all five fields are
integer-like and form a valid calendar datetime, the NaT marker otherwise.
(The finite pandas-representable year range is abstracted.) -/
def mkDatetime (y mo d h mi : Value) : Value :=
  match cellToInt y, cellToInt mo, cellToInt d, cellToInt h, cellToInt mi with
  | some yv, some mov, some dv, some hv, some miv =>
      if 0 ≤ yv ∧ 1 ≤ mov ∧ mov ≤ 12 ∧ 1 ≤ dv ∧
          dv ≤ (daysInMonth yv.toNat mov.toNat : Int) ∧
          0 ≤ hv ∧ hv ≤ 23 ∧ 0 ≤ miv ∧ miv ≤ 59 then
        .ts yv.toNat mov.toNat dv.toNat hv.toNat miv.toNat
      else .na
  | _, _, _, _, _ => .na

/-- The fixed source-column allow-list (`USE_COLS`). -/
def USE_COLS : List String :=
  ["Station_ID", "Station_name", "Year", "Month", "Day", "Hour", "Minute",
   "Latitude", "Longitude", "Elevation",
   "temperature", "dew_point_temperature", "station_level_pressure",
   "sea_level_pressure", "wind_speed", "wind_gust", "precipitation",
   "relative_humidity"]

/-- A pandas DataFrame: column names plus rows of positionally aligned
cells. -/
structure Table where
  cols : List String
  rows : List (List Value)
deriving DecidableEq, Repr

/-- Cell lookup by column name (`row[col]`); rows are positionally
aligned with the column list. -/
def getCell (cols : List String) (r : List Value) (name : String) : Value :=
  match cols.indexOf? name with
  | some i => r.getD i .na
  | none => .na

/-- `parse_datetime_frame` applied to one row of a chunk whose columns are
`USE_COLS`. -/
def rowDatetime (r : List Value) : Value :=
  mkDatetime (getCell USE_COLS r "Year") (getCell USE_COLS r "Month")
    (getCell USE_COLS r "Day") (getCell USE_COLS r "Hour")
    (getCell USE_COLS r "Minute")

/-- The range mask on one datetime cell:
`(datetime >= start_ts) & (datetime <= end_ts)`.  A missing datetime (NaT)
compares false on both sides, as in pandas. -/
def dtInRange (startTs endTs : Ts) : Value → Bool
  | .ts y m d h mi => tsLe startTs ⟨y, m, d, h, mi⟩ && tsLe ⟨y, m, d, h, mi⟩ endTs
  | _ => false

/-- Worker for `chunksOf`; the fuel argument (initialised to the list
length, which bounds the number of chunks) only serves structural
termination and never runs out. -/
def chunksOfGo (c : Nat) : Nat → List (List Value) → List (List (List Value))
  | _, [] => []
  | 0, xs => [xs]
  | fuel + 1, xs => if c = 0 then [xs] else xs.take c :: chunksOfGo c fuel (xs.drop c)

/-- Splitting a row list into sequential chunks of at most `c` rows, as
the `pd.read_csv(..., chunksize=c)` iterator yields them.  (pandas rejects
a non-positive chunksize; the `c = 0` branch is a degenerate
total-function case and every theorem assumes `0 < c`.) -/
def chunksOf (c : Nat) (xs : List (List Value)) : List (List (List Value)) :=
  chunksOfGo c xs.length xs

/-- One loop iteration body of `read_station_hourly`: assign the derived
`datetime` column to the chunk, then select the rows whose datetime lies
in `[start_ts, end_ts]`. -/
def filterChunk (startTs endTs : Ts) (chunk : List (List Value)) :
    List (List Value) :=
  (chunk.map (fun r => r ++ [rowDatetime r])).filter
    (fun r => dtInRange startTs endTs (getCell (USE_COLS ++ ["datetime"]) r "datetime"))

/-- The `kept` accumulator of `read_station_hourly`: one entry per chunk
whose mask has any match (`if mask.any(): kept.append(chunk.loc[mask])`),
in read order. -/
def keptChunks (startTs endTs : Ts) :
    List (List (List Value)) → List (List (List Value))
  | [] => []
  | ch :: rest =>
      let filtered := filterChunk startTs endTs ch
      if filtered.isEmpty then keptChunks startTs endTs rest
      else filtered :: keptChunks startTs endTs rest

/-- `read_station_hourly`: chunked read of a station file, per-chunk
datetime derivation and range filter, concatenation of kept chunks; an
empty frame with the expected column shape when nothing matched. -/
def read_station_hourly (file : List (List Value)) (startTs endTs : Ts)
    (chunksize : Nat) : Table :=
  let kept := keptChunks startTs endTs (chunksOf chunksize file)
  if kept.isEmpty then ⟨USE_COLS ++ ["datetime"], []⟩
  else ⟨USE_COLS ++ ["datetime"], kept.flatten⟩

/-- The remote data source: each station identifier names a pipe-delimited
file, read (restricted to `USE_COLS`) as a row list. -/
def Source : Type := String → List (List Value)

/-- Whitespace for Python's `str.strip()`. -/
def isSpaceChar (ch : Char) : Bool :=
  ch = ' ' || ch = '\t' || ch = '\n' || ch = '\r'

/-- Python `s.strip()`: remove leading and trailing whitespace.
(Implemented over the character list so that it evaluates by kernel
reduction.) -/
def pyStrip (s : String) : String :=
  ⟨((s.data.dropWhile isSpaceChar).reverse.dropWhile isSpaceChar).reverse⟩

/-- Worker for `pySplitComma`: `acc` holds the current field reversed. -/
def splitCommaAux : List Char → List Char → List String
  | acc, [] => [⟨acc.reverse⟩]
  | acc, ch :: rest =>
      if ch = ',' then ⟨acc.reverse⟩ :: splitCommaAux [] rest
      else splitCommaAux (ch :: acc) rest

/-- Python `s.split(",")`: split at every comma, keeping empty fields
(so `"".split(",") = [""]`). -/
def pySplitComma (s : String) : List String :=
  splitCommaAux [] s.data

/-- `[s.strip() for s in args.stations.split(",") if s.strip()]`. -/
def parseStations (stationsArg : String) : List String :=
  ((pySplitComma stationsArg).map pyStrip).filter (fun s => s ≠ "")

/-- The aggregation loop of `main` (lines 104-108): fetch each station in
input-list order, keep the non-empty frames (`if not df_station.empty`)
in that order. -/
def aggFrames (src : Source) (ids : List String) (startTs endTs : Ts)
    (chunksize : Nat) : List Table :=
  match ids with
  | [] => []
  | id :: rest =>
      let df := read_station_hourly (src id) startTs endTs chunksize
      if df.rows.isEmpty then aggFrames src rest startTs endTs chunksize
      else df :: aggFrames src rest startTs endTs chunksize

/-- `pd.concat(frames, ignore_index=True)`: every frame produced by the
fetcher carries the column list `USE_COLS ++ ["datetime"]`, so the
concatenation does too, with the rows glued in list order. -/
def concatTables (frames : List Table) : Table :=
  ⟨USE_COLS ++ ["datetime"], (frames.map Table.rows).flatten⟩

/-- The fixed measurement-column list of the coercion loop
(lines 122-131). -/
def MEASURE_COLS : List String :=
  ["temperature", "dew_point_temperature", "station_level_pressure",
   "sea_level_pressure", "wind_speed", "wind_gust", "precipitation",
   "relative_humidity"]

/-- `pd.to_numeric(cell, errors="coerce")`: numeric stays, numeric text
parses, anything else becomes missing.  (Measurement columns never hold
timestamp cells in this pipeline.) -/
def toNumericVal : Value → Value
  | .int n => .int n
  | .str s => match s.toInt? with
      | some n => .int n
      | none => .na
  | _ => .na

/-- One iteration of the coercion loop:
`if col in df.columns: df[col] = pd.to_numeric(df[col], errors="coerce")`. -/
def coerceCol (t : Table) (col : String) : Table :=
  match t.cols.indexOf? col with
  | some i => ⟨t.cols, t.rows.map (fun r => r.set i (toNumericVal (r.getD i .na)))⟩
  | none => t

/-- Python `c.lower()`, over the character list so that it evaluates by
kernel reduction. -/
def pyLower (s : String) : String :=
  ⟨s.data.map Char.toLower⟩

/-- `cell > 0` as pandas evaluates it on a coerced (numeric-or-missing)
column: true only for a numeric cell strictly above zero; a missing cell
compares false. -/
def valGtZero : Value → Bool
  | .int n => 0 < n
  | _ => false

/-- The post-processing block of `main` (lines 119-135): lower-case all
column names, coerce each measurement column present to numeric, then
append `is_rain = (precipitation > 0).astype(int)`.  `none` models the
`KeyError` that `df["is_rain"] = (df["precipitation"] > 0)` would raise
were the precipitation column absent (it never is in this pipeline). -/
def postProcess (t : Table) : Option Table :=
  let t1 : Table := ⟨t.cols.map pyLower, t.rows⟩
  let t2 := MEASURE_COLS.foldl coerceCol t1
  match t2.cols.indexOf? "precipitation" with
  | none => none
  | some i =>
      some ⟨t2.cols ++ ["is_rain"],
            t2.rows.map (fun r =>
              r ++ [.int (if valGtZero (r.getD i .na) then 1 else 0)])⟩

/-- A calendar date, as parsed from a `YYYY-MM-DD` argument. -/
structure Date where
  y : Nat
  m : Nat
  d : Nat
deriving DecidableEq, Repr

/-- `pd.to_datetime(f"{args.start} 00:00")`. -/
def dateStartTs (d : Date) : Ts := ⟨d.y, d.m, d.d, 0, 0⟩

/-- `pd.to_datetime(f"{args.end} 23:59")`. -/
def dateEndTs (d : Date) : Ts := ⟨d.y, d.m, d.d, 23, 59⟩

/-- Observable process effects, in program order: the import-time
`OUT_DIR.mkdir(parents=True, exist_ok=True)` (filesystem I/O), one remote
fetch per station the loop reaches, and the final columnar-file write to
the path derived from the requested date range. -/
inductive Effect where
  | mkdirOut : Effect
  | fetchStation (id : String) : Effect
  | writeFile (startDate endDate : Date) : Effect
deriving DecidableEq, Repr

/-- The whole program run (module import then `main`), returning the
effect trace and either the final written table or the raised error
message. -/
def runProgram (src : Source) (stationsArg : String) (startDate endDate : Date)
    (chunksize : Nat) : List Effect × Except String Table :=
  let startTs := dateStartTs startDate
  let endTs := dateEndTs endDate
  let ids := parseStations stationsArg
  if ids.isEmpty then
    ([.mkdirOut], .error "No stations provided.")
  else
    let frames := aggFrames src ids startTs endTs chunksize
    let fetchTrace := ids.map Effect.fetchStation
    if frames.isEmpty then
      (.mkdirOut :: fetchTrace,
       .error "No data found for the provided stations and date range.")
    else
      match postProcess (concatTables frames) with
      | some t =>
          (.mkdirOut :: fetchTrace ++ [.writeFile startDate endDate], .ok t)
      | none => (.mkdirOut :: fetchTrace, .error "KeyError")

/-- The run-table column list after lower-casing. -/
def OUT_COLS : List String := (USE_COLS ++ ["datetime"]).map pyLower

/-- Coercion of the cell at index `i` of a row. -/
def coerceAt (i : Nat) (r : List Value) : List Value :=
  r.set i (toNumericVal (r.getD i .na))

/-- Net effect of the measurement-coercion loop on one row of the run
table, whose measurement columns sit at indices 10-17. -/
def coerceMeasRow (r : List Value) : List Value :=
  coerceAt 17 (coerceAt 16 (coerceAt 15 (coerceAt 14 (coerceAt 13
    (coerceAt 12 (coerceAt 11 (coerceAt 10 r)))))))

/-- Net effect of the whole post-processing block on one row of the run
table: coerce the measurement cells, then append the `is_rain` cell
derived from the coerced precipitation cell (index 16). -/
def ppRow (r : List Value) : List Value :=
  coerceMeasRow r ++
    [.int (if valGtZero ((coerceMeasRow r).getD 16 .na) then 1 else 0)]

/-- Marker for fetch effects in the trace. -/
def isFetch : Effect → Bool
  | .fetchStation _ => true
  | _ => false

/-- Marker for file-write effects in the trace. -/
def isWrite : Effect → Bool
  | .writeFile _ _ => true
  | _ => false

/-! ## Concrete example inputs (used by witnesses and counterexamples) -/

/-- In-range row for station "A" (2024-05-17 12:30) with a non-numeric
temperature cell and precipitation 2. -/
def rowA1 : List Value :=
  [.str "A", .str "Alpha", .int 2024, .int 5, .int 17, .int 12, .int 30,
   .int 40, .int (-73), .int 10,
   .str "bad", .int 10, .int 1000, .int 1010, .int 3, .na, .int 2, .int 80]

/-- In-range row for station "A" (2024-05-18 12:30) with precipitation 0. -/
def rowA2 : List Value :=
  [.str "A", .str "Alpha", .int 2024, .int 5, .int 18, .int 12, .int 30,
   .int 40, .int (-73), .int 10,
   .int 21, .int 10, .int 1000, .int 1010, .int 3, .na, .int 0, .int 80]

/-- In-range row for station "A" (2024-05-19 12:30) with missing
precipitation. -/
def rowA3 : List Value :=
  [.str "A", .str "Alpha", .int 2024, .int 5, .int 19, .int 12, .int 30,
   .int 40, .int (-73), .int 10,
   .int 22, .int 10, .int 1000, .int 1010, .int 3, .na, .na, .int 80]

/-- Out-of-range row for station "B" (year 2000). -/
def rowB1 : List Value :=
  [.str "B", .str "Beta", .int 2000, .int 5, .int 17, .int 12, .int 30,
   .int 41, .int (-74), .int 5,
   .int 15, .int 8, .int 1000, .int 1010, .int 2, .na, .int 1, .int 70]

/-- A row whose date fields do not form a valid timestamp (month 13). -/
def rowBad : List Value :=
  [.str "A", .str "Alpha", .int 2024, .int 13, .int 17, .int 12, .int 30,
   .int 40, .int (-73), .int 10,
   .int 20, .int 10, .int 1000, .int 1010, .int 3, .na, .int 2, .int 80]

/-- Example remote source: station "A" has three in-range rows, every
other station only the out-of-range `rowB1`. -/
def exSrc : Source := fun id => if id = "A" then [rowA1, rowA2, rowA3] else [rowB1]

def exStartD : Date := ⟨2024, 1, 1⟩

def exEndD : Date := ⟨2024, 12, 31⟩

def exStartTs : Ts := ⟨2024, 1, 1, 0, 0⟩

def exEndTs : Ts := ⟨2024, 12, 31, 23, 59⟩

/-- The datetime-extended rows of station "A" as the fetcher keeps them. -/
def exRows19 : List (List Value) :=
  [rowA1 ++ [.ts 2024 5 17 12 30],
   rowA2 ++ [.ts 2024 5 18 12 30],
   rowA3 ++ [.ts 2024 5 19 12 30]]

/-- The post-processed table of `exRows19`. -/
def exPP : Table := ⟨OUT_COLS ++ ["is_rain"], exRows19.map ppRow⟩

/-! ## Helper lemmas -/

theorem getD_set_ne {α : Type} (l : List α) (v d : α) {i j : Nat} (h : i ≠ j) :
    (l.set i v).getD j d = l.getD j d := by
  rcases Nat.lt_or_ge j l.length with h' | h'
  · rw [List.getD_eq_getElem _ _ (by simpa using h'), List.getD_eq_getElem _ _ h',
      List.getElem_set_ne h]
  · rw [List.getD_eq_default _ _ (by simpa using h'), List.getD_eq_default _ _ h']

theorem getD_set_self {α : Type} (l : List α) (v d : α) {i : Nat}
    (h : i < l.length) : (l.set i v).getD i d = v := by
  rw [List.getD_eq_getElem _ _ (by simpa using h), List.getElem_set_self]

theorem length_ppRowAux {α : Type} (l : List α) (v : α) (i : Nat) :
    (l.set i v).length = l.length := List.length_set l i v

theorem chunksOfGo_flatten (c : Nat) (hc : 0 < c) :
    ∀ (fuel : Nat) (xs : List (List Value)), xs.length ≤ fuel →
      (chunksOfGo c fuel xs).flatten = xs := by
  intro fuel
  induction fuel with
  | zero =>
      intro xs h
      cases xs with
      | nil => rfl
      | cons x t => simp at h
  | succ n ih =>
      intro xs h
      cases xs with
      | nil => rfl
      | cons x t =>
          rw [chunksOfGo, if_neg (Nat.pos_iff_ne_zero.mp hc), List.flatten_cons,
            ih ((x :: t).drop c) (by simp at h ⊢; omega)]
          · exact List.take_append_drop c (x :: t)
          · simp

/-- Splitting into chunks and re-concatenating is the identity (for a
positive chunk size). -/
theorem chunksOf_flatten (c : Nat) (hc : 0 < c) (xs : List (List Value)) :
    (chunksOf c xs).flatten = xs :=
  chunksOfGo_flatten c hc xs.length xs (Nat.le_refl _)

theorem filterChunk_append (s e : Ts) (a b : List (List Value)) :
    filterChunk s e (a ++ b) = filterChunk s e a ++ filterChunk s e b := by
  simp [filterChunk, List.filter_append]

/-- Concatenating the kept chunks equals filtering the concatenation of all
chunks: the `mask.any()` guard only drops chunks that contribute nothing. -/
theorem keptChunks_flatten (s e : Ts) (chunks : List (List (List Value))) :
    (keptChunks s e chunks).flatten = filterChunk s e chunks.flatten := by
  induction chunks with
  | nil => simp [keptChunks, filterChunk]
  | cons ch rest ih =>
      by_cases h : (filterChunk s e ch).isEmpty
      · rw [keptChunks, if_pos h]
        simp [ih, filterChunk_append, List.isEmpty_iff.mp h]
      · rw [keptChunks, if_neg h]
        simp [ih, filterChunk_append]

/-- Normal form of the fetcher: for any positive chunk size, the result is
the whole file's rows, datetime-extended and range-filtered, under the
fixed column list. -/
theorem read_station_hourly_eq (file : List (List Value)) (s e : Ts)
    (c : Nat) (hc : 0 < c) :
    read_station_hourly file s e c =
      ⟨USE_COLS ++ ["datetime"], filterChunk s e file⟩ := by
  unfold read_station_hourly
  by_cases h : (keptChunks s e (chunksOf c file)).isEmpty
  · rw [if_pos h]
    have : (keptChunks s e (chunksOf c file)).flatten = [] := by
      simp [List.isEmpty_iff.mp h]
    rw [keptChunks_flatten, chunksOf_flatten c hc] at this
    simp [this]
  · rw [if_neg h, keptChunks_flatten, chunksOf_flatten c hc]

theorem coerceCol_step10 (rs : List (List Value)) :
    coerceCol ⟨OUT_COLS, rs⟩ "temperature" = ⟨OUT_COLS, rs.map (coerceAt 10)⟩ := rfl

theorem coerceCol_step11 (rs : List (List Value)) :
    coerceCol ⟨OUT_COLS, rs⟩ "dew_point_temperature" =
      ⟨OUT_COLS, rs.map (coerceAt 11)⟩ := rfl

theorem coerceCol_step12 (rs : List (List Value)) :
    coerceCol ⟨OUT_COLS, rs⟩ "station_level_pressure" =
      ⟨OUT_COLS, rs.map (coerceAt 12)⟩ := rfl

theorem coerceCol_step13 (rs : List (List Value)) :
    coerceCol ⟨OUT_COLS, rs⟩ "sea_level_pressure" =
      ⟨OUT_COLS, rs.map (coerceAt 13)⟩ := rfl

theorem coerceCol_step14 (rs : List (List Value)) :
    coerceCol ⟨OUT_COLS, rs⟩ "wind_speed" = ⟨OUT_COLS, rs.map (coerceAt 14)⟩ := rfl

theorem coerceCol_step15 (rs : List (List Value)) :
    coerceCol ⟨OUT_COLS, rs⟩ "wind_gust" = ⟨OUT_COLS, rs.map (coerceAt 15)⟩ := rfl

theorem coerceCol_step16 (rs : List (List Value)) :
    coerceCol ⟨OUT_COLS, rs⟩ "precipitation" =
      ⟨OUT_COLS, rs.map (coerceAt 16)⟩ := rfl

theorem coerceCol_step17 (rs : List (List Value)) :
    coerceCol ⟨OUT_COLS, rs⟩ "relative_humidity" =
      ⟨OUT_COLS, rs.map (coerceAt 17)⟩ := rfl

theorem foldl_coerceCol (rs : List (List Value)) :
    MEASURE_COLS.foldl coerceCol ⟨OUT_COLS, rs⟩ =
      ⟨OUT_COLS, rs.map coerceMeasRow⟩ := by
  simp only [MEASURE_COLS, List.foldl_cons, List.foldl_nil,
    coerceCol_step10, coerceCol_step11, coerceCol_step12, coerceCol_step13,
    coerceCol_step14, coerceCol_step15, coerceCol_step16, coerceCol_step17,
    List.map_map]
  rfl

/-- Normal form of the post-processing block on a run table: lower-cased
columns plus `is_rain`, and the per-row transform `ppRow` applied to each
row. -/
theorem indexOf_precip : OUT_COLS.indexOf? "precipitation" = some 16 := rfl

theorem postProcess_eq (rows : List (List Value)) :
    postProcess ⟨USE_COLS ++ ["datetime"], rows⟩ =
      some ⟨OUT_COLS ++ ["is_rain"], rows.map ppRow⟩ := by
  have h : MEASURE_COLS.foldl coerceCol
        ⟨(USE_COLS ++ ["datetime"]).map pyLower, rows⟩ =
      ⟨OUT_COLS, rows.map coerceMeasRow⟩ := foldl_coerceCol rows
  simp only [postProcess, h, indexOf_precip, List.map_map]
  rfl

theorem length_coerceAt (i : Nat) (r : List Value) :
    (coerceAt i r).length = r.length := List.length_set r i _

theorem length_coerceMeasRow (r : List Value) :
    (coerceMeasRow r).length = r.length := by
  simp [coerceMeasRow, length_coerceAt]

theorem length_ppRow (r : List Value) : (ppRow r).length = r.length + 1 := by
  simp [ppRow, length_coerceMeasRow]

theorem getD_coerceAt_ne (i j : Nat) (h : i ≠ j) (r : List Value) :
    (coerceAt i r).getD j .na = r.getD j .na :=
  getD_set_ne r _ _ h

theorem getD_coerceAt_self (i : Nat) (r : List Value) :
    (coerceAt i r).getD i .na = toNumericVal (r.getD i .na) := by
  rcases Nat.lt_or_ge i r.length with h | h
  · exact getD_set_self r _ _ h
  · rw [List.getD_eq_default _ _ (by simpa [coerceAt, List.length_set] using h),
      List.getD_eq_default _ _ h]
    rfl

theorem getD_foldl_coerce (is : List Nat) (his : is.Nodup) (r : List Value)
    (j : Nat) :
    (is.foldl (fun acc i => coerceAt i acc) r).getD j .na =
      if j ∈ is then toNumericVal (r.getD j .na) else r.getD j .na := by
  induction is generalizing r with
  | nil => simp
  | cons i is ih =>
      rcases List.nodup_cons.mp his with ⟨hni, hnd⟩
      simp only [List.foldl_cons, ih hnd]
      by_cases hji : j = i
      · subst hji
        rw [if_neg hni, if_pos (List.mem_cons_self j is), getD_coerceAt_self]
      · rw [getD_coerceAt_ne i j (Ne.symm hji)]
        simp [List.mem_cons, hji]

theorem coerceMeasRow_eq_foldl (r : List Value) :
    coerceMeasRow r =
      ([10, 11, 12, 13, 14, 15, 16, 17] : List Nat).foldl
        (fun acc i => coerceAt i acc) r := rfl

theorem getD_coerceMeasRow (r : List Value) (j : Nat) :
    (coerceMeasRow r).getD j .na =
      if j ∈ ([10, 11, 12, 13, 14, 15, 16, 17] : List Nat) then
        toNumericVal (r.getD j .na)
      else r.getD j .na := by
  rw [coerceMeasRow_eq_foldl, getD_foldl_coerce _ (by decide)]

/-- Post-processing one run-table row: cells below the appended `is_rain`
cell are the original cells, measurement cells coerced. -/
theorem getD_ppRow (r : List Value) (hr : r.length = 19) (j : Nat)
    (hj : j < 19) :
    (ppRow r).getD j .na =
      if j ∈ ([10, 11, 12, 13, 14, 15, 16, 17] : List Nat) then
        toNumericVal (r.getD j .na)
      else r.getD j .na := by
  unfold ppRow
  rw [List.getD_append _ _ _ _ (by rw [length_coerceMeasRow, hr]; omega),
    getD_coerceMeasRow]

/-- Post-processing one run-table row: the appended `is_rain` cell is the
0/1 indicator of the coerced precipitation cell (index 16). -/
theorem getD_ppRow_rain (r : List Value) (hr : r.length = 19) :
    (ppRow r).getD 19 .na =
      .int (if valGtZero (toNumericVal (r.getD 16 .na)) then 1 else 0) := by
  unfold ppRow
  rw [List.getD_append_right _ _ _ _ (by rw [length_coerceMeasRow, hr]),
    length_coerceMeasRow, hr]
  have h16 : (coerceMeasRow r).getD 16 .na = toNumericVal (r.getD 16 .na) := by
    rw [getD_coerceMeasRow]; simp
  show Value.int (if valGtZero ((coerceMeasRow r).getD 16 .na) then 1 else 0) = _
  rw [h16]

theorem getCell_raw_datetime (r : List Value) :
    getCell (USE_COLS ++ ["datetime"]) r "datetime" = r.getD 18 .na := rfl

theorem getCell_out_datetime (r : List Value) :
    getCell (OUT_COLS ++ ["is_rain"]) r "datetime" = r.getD 18 .na := rfl

theorem getCell_out_precip (r : List Value) :
    getCell (OUT_COLS ++ ["is_rain"]) r "precipitation" = r.getD 16 .na := rfl

theorem getCell_out_israin (r : List Value) :
    getCell (OUT_COLS ++ ["is_rain"]) r "is_rain" = r.getD 19 .na := rfl

/-- Rows kept by the fetch filter: datetime-extended source rows whose
datetime cell lies in range. -/
theorem mem_filterChunk {s e : Ts} {file : List (List Value)}
    {r : List Value} :
    r ∈ filterChunk s e file ↔
      ((∃ raw, raw ∈ file ∧ r = raw ++ [rowDatetime raw]) ∧
        dtInRange s e (getCell (USE_COLS ++ ["datetime"]) r "datetime") = true) := by
  simp only [filterChunk, List.mem_filter, List.mem_map]
  constructor
  · rintro ⟨⟨raw, hraw, rfl⟩, hpred⟩
    exact ⟨⟨raw, hraw, rfl⟩, hpred⟩
  · rintro ⟨⟨raw, hraw, rfl⟩, hpred⟩
    exact ⟨⟨raw, hraw, rfl⟩, hpred⟩

/-- The aggregation loop keeps, in input order, exactly the non-empty
per-station fetch results. -/
theorem aggFrames_eq (src : Source) (ids : List String) (s e : Ts) (c : Nat) :
    aggFrames src ids s e c =
      (ids.map (fun id => read_station_hourly (src id) s e c)).filter
        (fun t => !t.rows.isEmpty) := by
  induction ids with
  | nil => rfl
  | cons id rest ih =>
      simp only [aggFrames, List.map_cons, List.filter_cons]
      by_cases h : (read_station_hourly (src id) s e c).rows.isEmpty
      · rw [if_pos h, ih]; simp [h]
      · rw [if_neg h, ih]; simp [h]

/-- Flattening the kept frames' rows equals flattening all frames' rows:
skipped frames were empty. -/
theorem aggFrames_rows_flatten (src : Source) (ids : List String) (s e : Ts)
    (c : Nat) :
    ((aggFrames src ids s e c).map Table.rows).flatten =
      ((ids.map (fun id => read_station_hourly (src id) s e c)).map
        Table.rows).flatten := by
  rw [aggFrames_eq]
  induction (ids.map (fun id => read_station_hourly (src id) s e c)) with
  | nil => rfl
  | cons t rest ih =>
      by_cases h : t.rows.isEmpty
      · simp [List.filter_cons, h, ih, List.isEmpty_iff.mp h]
      · simp [List.filter_cons, h, ih]

/-! ## Claim theorems -/

theorem keptChunks_nil_of_empty (s e : Ts) (chunks : List (List (List Value)))
    (h : ∀ ch ∈ chunks, filterChunk s e ch = []) :
    keptChunks s e chunks = [] := by
  induction chunks with
  | nil => rfl
  | cons ch rest ih =>
      have hch := h ch (List.mem_cons_self _ _)
      simp only [keptChunks, hch, List.isEmpty_nil, if_true]
      exact ih (fun ch2 hch2 => h ch2 (List.mem_cons_of_mem _ hch2))

/-- C4: Chunking invariance: for the same station input and the same
inclusive timestamp range, the fetch-filter loop returns the same table
(same kept rows, in the same order) for any two positive chunk sizes; in
particular one chunk of size N versus several chunks of smaller size. -/
theorem spec_C4_chunking_invariance (file : List (List Value)) (s e : Ts)
    (c₁ c₂ : Nat) (h₁ : 0 < c₁) (h₂ : 0 < c₂) :
    read_station_hourly file s e c₁ = read_station_hourly file s e c₂ := by
  rw [read_station_hourly_eq file s e c₁ h₁, read_station_hourly_eq file s e c₂ h₂]

theorem spec_C4_witness :
    0 < 3 ∧ 0 < 1 ∧
      read_station_hourly [rowA1, rowA2, rowA3] exStartTs exEndTs 3 =
        read_station_hourly [rowA1, rowA2, rowA3] exStartTs exEndTs 1 :=
  ⟨by decide, by decide,
   spec_C4_chunking_invariance [rowA1, rowA2, rowA3] exStartTs exEndTs 3 1
     (by decide) (by decide)⟩

/-- C8: if no chunk yields an in-range row, the fetcher returns an empty
table whose columns are exactly the source-column allow-list plus
`datetime`; it is a total function, so absence of data for one station
raises no error. -/
theorem spec_C8_empty_shape (file : List (List Value)) (s e : Ts) (c : Nat)
    (h : ∀ chunk ∈ chunksOf c file, filterChunk s e chunk = []) :
    read_station_hourly file s e c = ⟨USE_COLS ++ ["datetime"], []⟩ := by
  unfold read_station_hourly
  rw [keptChunks_nil_of_empty s e _ h]
  rfl

theorem spec_C8_witness :
    (∀ chunk ∈ chunksOf 1 [rowB1], filterChunk exStartTs exEndTs chunk = []) ∧
      read_station_hourly [rowB1] exStartTs exEndTs 1 =
        ⟨USE_COLS ++ ["datetime"], []⟩ :=
  ⟨by decide, spec_C8_empty_shape [rowB1] exStartTs exEndTs 1 (by decide)⟩

/-- C2: in the post-processed table, `is_rain` is 1 exactly when the
row's precipitation cell is numeric and strictly positive, and 0
otherwise — in particular 0 when precipitation is missing. -/
theorem spec_C2_is_rain (rows : List (List Value))
    (hwf : ∀ r ∈ rows, r.length = 19) (pp : Table)
    (hpp : postProcess ⟨USE_COLS ++ ["datetime"], rows⟩ = some pp) :
    ∀ r ∈ pp.rows,
      (getCell pp.cols r "is_rain" = Value.int 1 ∨
        getCell pp.cols r "is_rain" = Value.int 0) ∧
      (getCell pp.cols r "is_rain" = Value.int 1 ↔
        ∃ n : Int, getCell pp.cols r "precipitation" = Value.int n ∧ 0 < n) ∧
      (getCell pp.cols r "precipitation" = Value.na →
        getCell pp.cols r "is_rain" = Value.int 0) := by
  rw [postProcess_eq] at hpp
  cases hpp
  show ∀ r ∈ rows.map ppRow,
      (getCell (OUT_COLS ++ ["is_rain"]) r "is_rain" = Value.int 1 ∨
        getCell (OUT_COLS ++ ["is_rain"]) r "is_rain" = Value.int 0) ∧
      (getCell (OUT_COLS ++ ["is_rain"]) r "is_rain" = Value.int 1 ↔
        ∃ n : Int, getCell (OUT_COLS ++ ["is_rain"]) r "precipitation" = Value.int n ∧ 0 < n) ∧
      (getCell (OUT_COLS ++ ["is_rain"]) r "precipitation" = Value.na →
        getCell (OUT_COLS ++ ["is_rain"]) r "is_rain" = Value.int 0)
  intro r hr
  rcases List.mem_map.mp hr with ⟨r0, hr0, rfl⟩
  have h19 := hwf r0 hr0
  have hrain : getCell (OUT_COLS ++ ["is_rain"]) (ppRow r0) "is_rain" =
      Value.int (if valGtZero (toNumericVal (r0.getD 16 .na)) then 1 else 0) := by
    rw [getCell_out_israin, getD_ppRow_rain r0 h19]
  have hprec : getCell (OUT_COLS ++ ["is_rain"]) (ppRow r0) "precipitation" =
      toNumericVal (r0.getD 16 .na) := by
    rw [getCell_out_precip, getD_ppRow r0 h19 16 (by omega)]
    simp
  rw [hrain, hprec]
  cases toNumericVal (r0.getD 16 .na) with
  | int n =>
      by_cases h : 0 < n <;> simp [valGtZero, h]
  | na => simp [valGtZero]
  | str s => simp [valGtZero]
  | ts y mo d h mi => simp [valGtZero]

theorem spec_C2_witness :
    (getCell exPP.cols (ppRow (rowA3 ++ [Value.ts 2024 5 19 12 30])) "is_rain" =
        Value.int 1 ∨
      getCell exPP.cols (ppRow (rowA3 ++ [Value.ts 2024 5 19 12 30])) "is_rain" =
        Value.int 0) ∧
    (getCell exPP.cols (ppRow (rowA3 ++ [Value.ts 2024 5 19 12 30])) "is_rain" =
        Value.int 1 ↔
      ∃ n : Int, getCell exPP.cols (ppRow (rowA3 ++ [Value.ts 2024 5 19 12 30]))
          "precipitation" = Value.int n ∧ 0 < n) ∧
    (getCell exPP.cols (ppRow (rowA3 ++ [Value.ts 2024 5 19 12 30]))
        "precipitation" = Value.na →
      getCell exPP.cols (ppRow (rowA3 ++ [Value.ts 2024 5 19 12 30])) "is_rain" =
        Value.int 0) :=
  spec_C2_is_rain exRows19 (by decide) exPP (postProcess_eq exRows19)
    (ppRow (rowA3 ++ [Value.ts 2024 5 19 12 30])) (by decide)

/-- C9: post-processing lower-cases every column name, coerces exactly the
measurement columns (indices 10-17) cell-wise to numeric-or-missing, adds
and removes no rows, and leaves every non-measurement cell unchanged
(besides appending `is_rain`). -/
theorem spec_C9_frame (rows : List (List Value))
    (hwf : ∀ r ∈ rows, r.length = 19) :
    ∃ pp, postProcess ⟨USE_COLS ++ ["datetime"], rows⟩ = some pp ∧
      pp.cols = (USE_COLS ++ ["datetime"]).map pyLower ++ ["is_rain"] ∧
      pp.rows.length = rows.length ∧
      (∀ k, k < rows.length → ∀ j,
        j ∈ ([0, 1, 2, 3, 4, 5, 6, 7, 8, 9, 18] : List Nat) →
        ((pp.rows.getD k []).getD j .na = (rows.getD k []).getD j .na)) ∧
      (∀ k, k < rows.length → ∀ j,
        j ∈ ([10, 11, 12, 13, 14, 15, 16, 17] : List Nat) →
        ((pp.rows.getD k []).getD j .na =
          toNumericVal ((rows.getD k []).getD j .na))) := by
  refine ⟨⟨OUT_COLS ++ ["is_rain"], rows.map ppRow⟩, postProcess_eq rows, rfl,
    by simp, ?_, ?_⟩
  · intro k hk j hj
    have hk2 : k < (rows.map ppRow).length := by simpa using hk
    have h1 : (rows.map ppRow).getD k [] = ppRow (rows.getD k []) := by
      rw [List.getD_eq_getElem _ _ hk2, List.getElem_map,
        List.getD_eq_getElem _ _ hk]
    have h19 : (rows.getD k []).length = 19 := by
      refine hwf _ ?_
      rw [List.getD_eq_getElem _ _ hk]
      exact List.getElem_mem hk
    fin_cases hj <;> rw [h1, getD_ppRow _ h19 _ (by omega)] <;> simp
  · intro k hk j hj
    have hk2 : k < (rows.map ppRow).length := by simpa using hk
    have h1 : (rows.map ppRow).getD k [] = ppRow (rows.getD k []) := by
      rw [List.getD_eq_getElem _ _ hk2, List.getElem_map,
        List.getD_eq_getElem _ _ hk]
    have h19 : (rows.getD k []).length = 19 := by
      refine hwf _ ?_
      rw [List.getD_eq_getElem _ _ hk]
      exact List.getElem_mem hk
    fin_cases hj <;> rw [h1, getD_ppRow _ h19 _ (by omega)] <;> simp

theorem spec_C9_witness :
    ∃ pp, postProcess ⟨USE_COLS ++ ["datetime"], exRows19⟩ = some pp ∧
      pp.cols = (USE_COLS ++ ["datetime"]).map pyLower ++ ["is_rain"] ∧
      pp.rows.length = exRows19.length ∧
      (∀ k, k < exRows19.length → ∀ j,
        j ∈ ([0, 1, 2, 3, 4, 5, 6, 7, 8, 9, 18] : List Nat) →
        ((pp.rows.getD k []).getD j .na = (exRows19.getD k []).getD j .na)) ∧
      (∀ k, k < exRows19.length → ∀ j,
        j ∈ ([10, 11, 12, 13, 14, 15, 16, 17] : List Nat) →
        ((pp.rows.getD k []).getD j .na =
          toNumericVal ((exRows19.getD k []).getD j .na))) :=
  spec_C9_frame exRows19 (by decide)

/-- Inversion: a successful run's output table is the post-processed
concatenation of the kept per-station frames. -/
theorem runProgram_ok_inv (src : Source) (arg : String) (d1 d2 : Date)
    (c : Nat) (t : Table)
    (ht : (runProgram src arg d1 d2 c).2 = .ok t) :
    t = ⟨OUT_COLS ++ ["is_rain"],
      (((aggFrames src (parseStations arg) (dateStartTs d1) (dateEndTs d2)
          c).map Table.rows).flatten).map ppRow⟩ := by
  simp only [runProgram] at ht
  by_cases hids : (parseStations arg).isEmpty
  · simp [hids] at ht
  · rw [if_neg hids] at ht
    by_cases hfr : (aggFrames src (parseStations arg) (dateStartTs d1)
        (dateEndTs d2) c).isEmpty
    · simp [hfr] at ht
    · rw [if_neg hfr] at ht
      have hconcat : concatTables (aggFrames src (parseStations arg)
            (dateStartTs d1) (dateEndTs d2) c) =
          ⟨USE_COLS ++ ["datetime"],
           ((aggFrames src (parseStations arg) (dateStartTs d1)
              (dateEndTs d2) c).map Table.rows).flatten⟩ := rfl
      rw [hconcat, postProcess_eq] at ht
      simpa [eq_comm] using ht

/-- C1: every row of the final output table of a successful run has its
derived `datetime` within `[start 00:00, end 23:59]` inclusive. -/
theorem spec_C1_datetime_in_range (src : Source) (arg : String)
    (d1 d2 : Date) (c : Nat) (hc : 0 < c)
    (hwf : ∀ id r, r ∈ src id → r.length = 18) (t : Table)
    (ht : (runProgram src arg d1 d2 c).2 = .ok t) :
    ∀ r ∈ t.rows,
      dtInRange (dateStartTs d1) (dateEndTs d2)
        (getCell t.cols r "datetime") = true := by
  obtain rfl := runProgram_ok_inv src arg d1 d2 c t ht
  intro r hr
  rcases List.mem_map.mp hr with ⟨r0, hr0, rfl⟩
  rw [aggFrames_rows_flatten] at hr0
  rcases List.mem_flatten.mp hr0 with ⟨rowsF, hrowsF, hr0mem⟩
  rcases List.mem_map.mp hrowsF with ⟨tbl, htbl, rfl⟩
  rcases List.mem_map.mp htbl with ⟨id, hid, rfl⟩
  rw [read_station_hourly_eq _ _ _ c hc] at hr0mem
  rcases mem_filterChunk.mp hr0mem with ⟨⟨raw, hraw, rfl⟩, hpred⟩
  have h18 := hwf id raw hraw
  have h19 : (raw ++ [rowDatetime raw]).length = 19 := by simp [h18]
  have hfinal : getCell (OUT_COLS ++ ["is_rain"])
      (ppRow (raw ++ [rowDatetime raw])) "datetime" =
      (raw ++ [rowDatetime raw]).getD 18 .na := by
    rw [getCell_out_datetime, getD_ppRow _ h19 18 (by omega)]
    simp
  rw [getCell_raw_datetime] at hpred
  show dtInRange (dateStartTs d1) (dateEndTs d2)
    (getCell (OUT_COLS ++ ["is_rain"])
      (ppRow (raw ++ [rowDatetime raw])) "datetime") = true
  rw [hfinal]
  exact hpred

theorem spec_C1_witness :
    dtInRange (dateStartTs exStartD) (dateEndTs exEndD)
      (getCell exPP.cols (ppRow (rowA1 ++ [Value.ts 2024 5 17 12 30]))
        "datetime") = true :=
  spec_C1_datetime_in_range exSrc "A,B" exStartD exEndD 2 (by decide)
    (by
      intro id r hr
      by_cases h : id = "A"
      · simp [exSrc, h] at hr
        rcases hr with rfl | rfl | rfl <;> rfl
      · simp [exSrc, h] at hr
        subst hr
        rfl)
    exPP (by rfl) (ppRow (rowA1 ++ [Value.ts 2024 5 17 12 30]))
    (List.mem_map_of_mem ppRow (List.mem_cons_self _ _))

/-- C5: the aggregator fetches once per identifier in input-list order,
keeps exactly the non-empty results in that order, and the concatenated
rows are all stations' kept rows glued in input-list order (empty results
contribute nothing). -/
theorem spec_C5_aggregator (src : Source) (ids : List String) (s e : Ts)
    (c : Nat) (hc : 0 < c) (hne : ids ≠ []) :
    aggFrames src ids s e c =
      (ids.map (fun id => read_station_hourly (src id) s e c)).filter
        (fun t => !t.rows.isEmpty) ∧
    (concatTables (aggFrames src ids s e c)).rows =
      (ids.map (fun id => (read_station_hourly (src id) s e c).rows)).flatten := by
  refine ⟨aggFrames_eq src ids s e c, ?_⟩
  show ((aggFrames src ids s e c).map Table.rows).flatten = _
  rw [aggFrames_rows_flatten, List.map_map]
  rfl

theorem spec_C5_witness :
    0 < 2 ∧ (["A", "B"] : List String) ≠ [] ∧
      (concatTables (aggFrames exSrc ["A", "B"] exStartTs exEndTs 2)).rows =
        exRows19 := by
  refine ⟨by decide, by decide, ?_⟩
  rw [(spec_C5_aggregator exSrc ["A", "B"] exStartTs exEndTs 2 (by decide)
    (by decide)).2]
  decide

theorem aggFrames_nil_of_empty (src : Source) (ids : List String) (s e : Ts)
    (c : Nat)
    (h : ∀ id ∈ ids, (read_station_hourly (src id) s e c).rows = []) :
    aggFrames src ids s e c = [] := by
  induction ids with
  | nil => rfl
  | cons id rest ih =>
      have hid := h id (List.mem_cons_self _ _)
      simp only [aggFrames, hid, List.isEmpty_nil, if_true]
      exact ih (fun id2 h2 => h id2 (List.mem_cons_of_mem _ h2))

theorem filter_isWrite_map (ids : List String) :
    (ids.map Effect.fetchStation).filter isWrite = [] := by
  induction ids with
  | nil => rfl
  | cons id rest ih => simp [List.filter_cons, isWrite, ih]

theorem filter_isFetch_map (ids : List String) :
    (ids.map Effect.fetchStation).filter isFetch = ids.map Effect.fetchStation := by
  induction ids with
  | nil => rfl
  | cons id rest ih => simp [List.filter_cons, isFetch, ih]

theorem filter_isFetch_map_app (ids : List String) (d1 d2 : Date) :
    ((ids.map Effect.fetchStation) ++ [Effect.writeFile d1 d2]).filter isFetch =
      ids.map Effect.fetchStation := by
  rw [List.filter_append, filter_isFetch_map]
  simp [isFetch]

/-- C6: when every requested station yields zero matching rows, the run
raises the no-data error after all fetch attempts (the trace holds one
fetch per station) and the writer is never reached (no write effect). -/
theorem spec_C6_no_data (src : Source) (arg : String) (d1 d2 : Date)
    (c : Nat) (hne : parseStations arg ≠ [])
    (hempty : ∀ id ∈ parseStations arg,
      (read_station_hourly (src id) (dateStartTs d1) (dateEndTs d2) c).rows = []) :
    runProgram src arg d1 d2 c =
      (Effect.mkdirOut :: (parseStations arg).map Effect.fetchStation,
       Except.error "No data found for the provided stations and date range.") ∧
    (runProgram src arg d1 d2 c).1.filter isWrite = [] := by
  have hfr := aggFrames_nil_of_empty src (parseStations arg)
    (dateStartTs d1) (dateEndTs d2) c hempty
  have hmain : runProgram src arg d1 d2 c =
      (Effect.mkdirOut :: (parseStations arg).map Effect.fetchStation,
       Except.error "No data found for the provided stations and date range.") := by
    simp only [runProgram]
    rw [if_neg (fun h => hne (List.isEmpty_iff.mp h)), hfr]
    rfl
  refine ⟨hmain, ?_⟩
  rw [hmain]
  exact filter_isWrite_map (parseStations arg)

theorem spec_C6_witness :
    parseStations "A,B" ≠ [] ∧
      runProgram (fun _ => [rowB1]) "A,B" exStartD exEndD 1 =
        ([Effect.mkdirOut, Effect.fetchStation "A", Effect.fetchStation "B"],
         Except.error "No data found for the provided stations and date range.") := by
  refine ⟨by decide, ?_⟩
  rw [(spec_C6_no_data (fun _ => [rowB1]) "A,B" exStartD exEndD 1 (by decide)
    (by decide)).1]
  rfl

/-- C7 counterexample: with a whitespace-only `--stations` value the run
does fail with the configuration error, but its effect trace is not
empty: the import-time output-directory creation (filesystem I/O) has
already run, refuting "before any I/O is performed". -/
theorem spec_C7_counterexample :
    (runProgram (fun _ => []) "  ,  " exStartD exEndD 1).2 =
      Except.error "No stations provided." ∧
    (runProgram (fun _ => []) "  ,  " exStartD exEndD 1).1 =
      [Effect.mkdirOut] ∧
    (runProgram (fun _ => []) "  ,  " exStartD exEndD 1).1 ≠ [] :=
  ⟨rfl, rfl, by decide⟩

/-- C7 (amended): an empty-after-trimming station list makes the run fail
with the configuration error before contacting any remote source (no
fetch effect, and no effect at all beyond the import-time directory
creation). -/
theorem spec_C7_config_error (src : Source) (arg : String) (d1 d2 : Date)
    (c : Nat) (h : parseStations arg = []) :
    runProgram src arg d1 d2 c =
      ([Effect.mkdirOut], Except.error "No stations provided.") ∧
    (runProgram src arg d1 d2 c).1.filter isFetch = [] := by
  have hmain : runProgram src arg d1 d2 c =
      ([Effect.mkdirOut], Except.error "No stations provided.") := by
    simp only [runProgram]
    rw [if_pos (by rw [h]; rfl)]
  exact ⟨hmain, by rw [hmain]; rfl⟩

theorem spec_C7_witness :
    parseStations "  ,  " = [] ∧
      runProgram (fun _ => []) "  ,  " exStartD exEndD 1 =
        ([Effect.mkdirOut], Except.error "No stations provided.") :=
  ⟨by decide,
   (spec_C7_config_error (fun _ => []) "  ,  " exStartD exEndD 1 (by decide)).1⟩

/-- C3 counterexample: a row whose date fields are invalid (month 13) has
its datetime downgraded to missing, but the row is NOT retained: the
fetcher's range mask evaluates false on the missing datetime and returns
the empty table, refuting "the row itself is retained in the table". -/
theorem spec_C3_counterexample :
    rowDatetime rowBad = Value.na ∧
    (read_station_hourly [rowBad] exStartTs exEndTs 1).rows = [] := by decide

/-- C3 (amended): a malformed numeric cell is downgraded to missing by
post-processing with the row retained and all other fields intact; a
malformed datetime is downgraded to missing by the normalizer without an
error, but the row is then dropped by the range filter rather than
retained. -/
theorem spec_C3_coercion (rows : List (List Value))
    (hwf : ∀ r ∈ rows, r.length = 19) (pp : Table)
    (hpp : postProcess ⟨USE_COLS ++ ["datetime"], rows⟩ = some pp) :
    pp.rows.length = rows.length ∧
    (∀ k, k < rows.length →
      (∀ s : String, (rows.getD k []).getD 10 .na = Value.str s →
        s.toInt? = none → (pp.rows.getD k []).getD 10 .na = Value.na) ∧
      (∀ j, j ∈ ([0, 1, 2, 3, 4, 5, 6, 7, 8, 9, 18] : List Nat) →
        (pp.rows.getD k []).getD j .na = (rows.getD k []).getD j .na)) ∧
    (∀ (file : List (List Value)) (s e : Ts) (c : Nat), 0 < c →
      ∀ r : List Value, r.length = 18 → rowDatetime r = Value.na →
        (r ++ [rowDatetime r]) ∉ (read_station_hourly file s e c).rows) := by
  rw [postProcess_eq] at hpp
  cases hpp
  rw [show (⟨OUT_COLS ++ ["is_rain"], rows.map ppRow⟩ : Table).rows =
    rows.map ppRow from rfl]
  refine ⟨by simp, ?_, ?_⟩
  · intro k hk
    have hk2 : k < (rows.map ppRow).length := by simpa using hk
    have h1 : (rows.map ppRow).getD k [] = ppRow (rows.getD k []) := by
      rw [List.getD_eq_getElem _ _ hk2, List.getElem_map,
        List.getD_eq_getElem _ _ hk]
    have h19 : (rows.getD k []).length = 19 := by
      refine hwf _ ?_
      rw [List.getD_eq_getElem _ _ hk]
      exact List.getElem_mem hk
    constructor
    · intro s hs hparse
      rw [h1, getD_ppRow _ h19 10 (by omega)]
      simp only [List.mem_cons, if_pos (by norm_num : (10:Nat) ∈ ([10, 11, 12, 13, 14, 15, 16, 17] : List Nat))]
      rw [hs]
      simp [toNumericVal, hparse]
    · intro j hj
      fin_cases hj <;> rw [h1, getD_ppRow _ h19 _ (by omega)] <;> simp
  · intro file s e c hc r h18 hna hmem
    rw [read_station_hourly_eq _ _ _ c hc] at hmem
    have hpred := (mem_filterChunk.mp hmem).2
    rw [getCell_raw_datetime] at hpred
    have hcell : (r ++ [rowDatetime r]).getD 18 .na = rowDatetime r := by
      rw [List.getD_append_right _ _ _ _ (le_of_eq h18), h18]
      rfl
    rw [hcell, hna] at hpred
    simp [dtInRange] at hpred

theorem spec_C3_witness :
    exPP.rows.length = exRows19.length ∧
    (∀ k, k < exRows19.length →
      (∀ s : String, (exRows19.getD k []).getD 10 .na = Value.str s →
        s.toInt? = none → (exPP.rows.getD k []).getD 10 .na = Value.na) ∧
      (∀ j, j ∈ ([0, 1, 2, 3, 4, 5, 6, 7, 8, 9, 18] : List Nat) →
        (exPP.rows.getD k []).getD j .na = (exRows19.getD k []).getD j .na)) ∧
    (∀ (file : List (List Value)) (s e : Ts) (c : Nat), 0 < c →
      ∀ r : List Value, r.length = 18 → rowDatetime r = Value.na →
        (r ++ [rowDatetime r]) ∉ (read_station_hourly file s e c).rows) :=
  spec_C3_coercion exRows19 (by decide) exPP (postProcess_eq exRows19)

/-- C10: the station list is the comma-split of `--stations`, each entry
stripped, empty entries removed, in order with duplicates retained: the
run performs exactly one fetch per entry in that order (so an identifier
occurring k times is fetched k times), and the aggregated rows are the
per-entry fetch results concatenated in that order (duplicated stations
contribute their rows once per occurrence). -/
theorem spec_C10_station_list (src : Source) (arg : String) (d1 d2 : Date)
    (c : Nat) (hc : 0 < c) :
    ((runProgram src arg d1 d2 c).1.filter isFetch =
      (((pySplitComma arg).map pyStrip).filter (fun s => s ≠ "")).map
        Effect.fetchStation) ∧
    (∀ id : String,
      ((runProgram src arg d1 d2 c).1.filter isFetch).count
        (Effect.fetchStation id) = (parseStations arg).count id) ∧
    ((concatTables (aggFrames src (parseStations arg) (dateStartTs d1)
        (dateEndTs d2) c)).rows =
      ((parseStations arg).map (fun id =>
        (read_station_hourly (src id) (dateStartTs d1) (dateEndTs d2)
          c).rows)).flatten) := by
  have htrace : (runProgram src arg d1 d2 c).1.filter isFetch =
      (parseStations arg).map Effect.fetchStation := by
    simp only [runProgram]
    by_cases hids : (parseStations arg).isEmpty
    · rw [if_pos hids, List.isEmpty_iff.mp hids]
      rfl
    · rw [if_neg hids]
      by_cases hfr : (aggFrames src (parseStations arg) (dateStartTs d1)
          (dateEndTs d2) c).isEmpty
      · rw [if_pos hfr]
        exact filter_isFetch_map (parseStations arg)
      · rw [if_neg hfr]
        have hconcat : concatTables (aggFrames src (parseStations arg)
              (dateStartTs d1) (dateEndTs d2) c) =
            ⟨USE_COLS ++ ["datetime"],
             ((aggFrames src (parseStations arg) (dateStartTs d1)
                (dateEndTs d2) c).map Table.rows).flatten⟩ := rfl
        rw [hconcat, postProcess_eq]
        exact filter_isFetch_map_app (parseStations arg) d1 d2
  refine ⟨by rw [htrace]; rfl, ?_, ?_⟩
  · intro id
    rw [htrace]
    exact List.count_map_of_injective _ _
      (fun a b hab => by simpa using hab) id
  · show ((aggFrames src (parseStations arg) (dateStartTs d1)
      (dateEndTs d2) c).map Table.rows).flatten = _
    rw [aggFrames_rows_flatten, List.map_map]
    rfl

theorem spec_C10_witness :
    0 < 2 ∧
    (runProgram exSrc "A, A" exStartD exEndD 2).1.filter isFetch =
      [Effect.fetchStation "A", Effect.fetchStation "A"] ∧
    (concatTables (aggFrames exSrc (parseStations "A, A")
        (dateStartTs exStartD) (dateEndTs exEndD) 2)).rows =
      exRows19 ++ exRows19 := by
  refine ⟨by decide, ?_, ?_⟩
  · rw [(spec_C10_station_list exSrc "A, A" exStartD exEndD 2 (by decide)).1]
    decide
  · rw [(spec_C10_station_list exSrc "A, A" exStartD exEndD 2 (by decide)).2.2]
    decide
